import Mathlib

/-!
# Verification of the `openai-functions` core against its specification

This file shallowly embeds the parts of the `openai-functions` Python
package that the checked claims are about:

* the argument-schema parsers (`src/openai_functions/parsers/*.py`),
* the function wrapper (`src/openai_functions/functions/wrapper.py`),
* the function sets (`src/openai_functions/functions/basic_set.py`,
  `union.py`, `togglable_set.py`),
* the conversation engine (`src/openai_functions/conversation.py`).

Python values appearing in JSON positions are modelled by the inductive
type `JsonValue`; parsed (native Python) values by `PyValue`; exceptions
by explicit error types carried in `Except`.  Mutable state (the
togglable set's `enabled` flag, the conversation's message list) is
modelled by explicit state passing.
-/

namespace OpenAIFunctions

/-- A JSON value as produced by `json.loads`: `None`, `bool`, `int`,
`float`, `str`, `list`, `dict` (string-keyed, in insertion order).
The payload of a float is kept opaque (as its literal text) since the
code under verification never computes with floats. -/
inductive JsonValue where
  | null : JsonValue
  | bool (b : Bool) : JsonValue
  | int (n : Int) : JsonValue
  | float (lit : String) : JsonValue
  | str (s : String) : JsonValue
  | arr (elems : List JsonValue) : JsonValue
  | obj (fields : List (String × JsonValue)) : JsonValue
deriving Repr

/-- A parsed native Python value as returned by the parsers'
`parse_value`: the JSON shapes plus enum members and dataclass
instances. -/
inductive PyValue where
  | none : PyValue
  | bool (b : Bool) : PyValue
  | int (n : Int) : PyValue
  | float (lit : String) : PyValue
  | str (s : String) : PyValue
  | list (elems : List PyValue) : PyValue
  | dict (fields : List (String × PyValue)) : PyValue
  | enumMember (enumName member : String) : PyValue
  | dataclassInst (className : String) (fields : List (String × PyValue)) : PyValue
deriving Repr

/-- The exceptions a parser's `parse_value` can raise:
`TypeError` (a generic Python exception, carrying only a message) and
`BrokenSchemaError` (from `src/openai_functions/exceptions.py`, carrying
the offending value and the expected schema).  `BrokenSchemaError` is
*not* a subclass of `TypeError` in the source. -/
inductive ParseError where
  | typeError (msg : String) : ParseError
  | brokenSchema (response : JsonValue) (schema : JsonValue) : ParseError
deriving Repr

/-- A type descriptor: the Python type annotations the default parsers
of `src/openai_functions/parsers/` can handle.  A dataclass field is a
name, a type and whether the field has a default value. -/
inductive TypeDesc where
  | bool : TypeDesc
  | int : TypeDesc
  | float : TypeDesc
  | str : TypeDesc
  | none : TypeDesc
  | list (elem : TypeDesc) : TypeDesc
  | dict (value : TypeDesc) : TypeDesc
  | union (alts : List TypeDesc) : TypeDesc
  | enumT (ename : String) (doc : Option String) (members : List String) : TypeDesc
  | dataclass (cname : String) (doc : Option String)
      (fields : List (String × TypeDesc × Bool)) : TypeDesc
deriving Repr

namespace TypeDesc

/-- Model of `DataclassParser.required_fields`: the fields without a default. -/
def requiredFields (fields : List (String × TypeDesc × Bool)) : List String :=
  (fields.filter (fun f => !f.2.2)).map (fun f => f.1)

mutual

/-- Model of `argument_schema` of each parser: the JSON-schema fragment emitted
for a type descriptor (`bool_parser.py`, `int_parser.py`,
`float_parser.py`, `str_parser.py`, `none_parser.py`, `list_parser.py`,
`dict_parser.py`, `union_parser.py`, `enum_parser.py`,
`dataclass_parser.py`). -/
def argumentSchema : TypeDesc → JsonValue
  | .bool => .obj [("type", .str "boolean")]
  | .int => .obj [("type", .str "integer")]
  | .float => .obj [("type", .str "number")]
  | .str => .obj [("type", .str "string")]
  | .none => .obj [("type", .str "null")]
  | .list t => .obj [("type", .str "array"), ("items", argumentSchema t)]
  | .dict t => .obj [("type", .str "object"), ("additionalProperties", argumentSchema t)]
  | .union alts => .obj [("anyOf", .arr (argumentSchemaList alts))]
  | .enumT _ doc members =>
      .obj ([("type", .str "string"), ("enum", .arr (members.map .str))] ++
        (match doc with
         | Option.some d => [("description", JsonValue.str d)]
         | Option.none => []))
  | .dataclass _ doc fields =>
      .obj [("type", .str "object"),
            ("description", match doc with
              | Option.some d => JsonValue.str d
              | Option.none => JsonValue.null),
            ("properties", .obj (dataclassFieldSchemas fields)),
            ("required", .arr ((requiredFields fields).map .str))]

/-- Schemas of the alternatives of a union, in declaration order. -/
def argumentSchemaList : List TypeDesc → List JsonValue
  | [] => []
  | t :: rest => argumentSchema t :: argumentSchemaList rest

/-- Schemas of the fields of a dataclass, in declaration order. -/
def dataclassFieldSchemas : List (String × TypeDesc × Bool) → List (String × JsonValue)
  | [] => []
  | (n, t, _) :: rest => (n, argumentSchema t) :: dataclassFieldSchemas rest

end

end TypeDesc

open TypeDesc (argumentSchema)

mutual

/-- Model of `parse_value` of the default parsers, dispatched on the type
descriptor exactly as the default parser list dispatches on the
annotation (each descriptor matches exactly one default parser's
`can_parse`):

* `AtomicParser.parse_value` (bool/str via `atomic_type_parser.py`):
  `isinstance` check, else a generic `TypeError`;
* `IntParser.parse_value`: rejects `bool` first with
  `BrokenSchemaError` (bool being a subclass of int in Python), then the
  atomic `isinstance(value, int)` check;
* `FloatParser`, `NoneParser`: `isinstance`/`is None` check, else
  `TypeError`;
* `ListParser`, `DictParser`: container check, else `TypeError`, then
  recursive parsing of every element/value;
* `UnionParser`: tries the alternatives in declaration order,
  suppressing only `TypeError`;
* `EnumParser`, `DataclassParser`: structural checks raising
  `BrokenSchemaError`.

`TypeError` message texts abbreviate the source's interpolated
messages; no claim depends on the text. -/
def parseValue : TypeDesc → JsonValue → Except ParseError PyValue
  | .bool, v =>
      match v with
      | .bool b => .ok (.bool b)
      | _ => .error (.typeError "Expected bool")
  | .int, v =>
      match v with
      | .bool b => .error (.brokenSchema (.bool b) (argumentSchema .int))
      | .int n => .ok (.int n)
      | _ => .error (.typeError "Expected int")
  | .float, v =>
      match v with
      | .float lit => .ok (.float lit)
      | _ => .error (.typeError "Expected float")
  | .str, v =>
      match v with
      | .str s => .ok (.str s)
      | _ => .error (.typeError "Expected str")
  | .none, v =>
      match v with
      | .null => .ok .none
      | _ => .error (.typeError "Expected None")
  | .list t, v =>
      match v with
      | .arr elems => (parseListElems t elems).map .list
      | _ => .error (.typeError "Expected list")
  | .dict t, v =>
      match v with
      | .obj fields => (parseDictVals t fields).map .dict
      | _ => .error (.typeError "Expected dict")
  | .union alts, v => parseUnionAlts alts v
  | .enumT ename doc members, v =>
      match v with
      | .str s =>
          if s ∈ members then .ok (.enumMember ename s)
          else .error (.brokenSchema (.str s) (argumentSchema (.enumT ename doc members)))
      | _ => .error (.brokenSchema v (argumentSchema (.enumT ename doc members)))
  | .dataclass cname doc fields, v =>
      match v with
      | .obj kvs =>
          if (TypeDesc.requiredFields fields).all
              (fun f => kvs.any (fun kv => kv.1 == f)) then
            if kvs.all (fun kv => fields.any (fun f => f.1 == kv.1)) then
              (parseDataclassFields fields kvs).map (.dataclassInst cname)
            else .error (.brokenSchema (.obj kvs) (argumentSchema (.dataclass cname doc fields)))
          else .error (.brokenSchema (.obj kvs) (argumentSchema (.dataclass cname doc fields)))
      | _ => .error (.brokenSchema v (argumentSchema (.dataclass cname doc fields)))

/-- Model of `ListParser.parse_value`: each element parsed recursively; the
first failing element fails the whole list. -/
def parseListElems (t : TypeDesc) : List JsonValue → Except ParseError (List PyValue)
  | [] => .ok []
  | v :: rest =>
      match parseValue t v with
      | .error e => .error e
      | .ok pv =>
          match parseListElems t rest with
          | .error e => .error e
          | .ok pvs => .ok (pv :: pvs)

/-- Model of `DictParser.parse_value`: every value parsed recursively. -/
def parseDictVals (t : TypeDesc) :
    List (String × JsonValue) → Except ParseError (List (String × PyValue))
  | [] => .ok []
  | (k, v) :: rest =>
      match parseValue t v with
      | .error e => .error e
      | .ok pv =>
          match parseDictVals t rest with
          | .error e => .error e
          | .ok pvs => .ok ((k, pv) :: pvs)

/-- Model of `UnionParser.parse_value`: `for single_type in get_args(...):
with contextlib.suppress(TypeError): return ...parse_value(value)`.
Only `TypeError` falls through to the next alternative; any other
exception (in particular `BrokenSchemaError`) propagates immediately.
The final fallback is a generic `TypeError`. -/
def parseUnionAlts : List TypeDesc → JsonValue → Except ParseError PyValue
  | [], _ => .error (.typeError "Expected one of the union alternatives")
  | t :: rest, v =>
      match parseValue t v with
      | .ok r => .ok r
      | .error (.typeError _) => parseUnionAlts rest v
      | .error e => .error e

/-- Model of `DataclassParser.parse_value` construction step: fields are
visited in dataclass declaration order, absent (defaulted) fields are
skipped, present fields are parsed recursively. -/
def parseDataclassFields :
    List (String × TypeDesc × Bool) → List (String × JsonValue) →
    Except ParseError (List (String × PyValue))
  | [], _ => .ok []
  | (n, t, _) :: rest, kvs =>
      match kvs.find? (fun kv => kv.1 == n) with
      | Option.none => parseDataclassFields rest kvs
      | Option.some kv =>
          match parseValue t kv.2 with
          | .error e => .error e
          | .ok pv =>
              match parseDataclassFields rest kvs with
              | .error e => .error e
              | .ok pvs => .ok ((n, pv) :: pvs)

end

/-! ## The default parser list (`parsers/default.py`) -/

/-- One tag per default parser class. -/
inductive ParserKind where
  | boolP | dataclassP | dictP | enumP | floatP
  | intP | listP | noneP | strP | unionP
deriving DecidableEq, Repr

/-- Model of `defargparsers` from `parsers/default.py`, in source order. -/
def defargparsers : List ParserKind :=
  [.boolP, .dataclassP, .dictP, .enumP, .floatP,
   .intP, .listP, .noneP, .strP, .unionP]

/-- The `can_parse` classmethod of each default parser, on the type
descriptors of this embedding.  `IntParser.can_parse` is `argtype is
int`, which is false for `bool` (the *type* `bool` is not the type
`int`, even though `bool` values are `int` instances). -/
def canParse : ParserKind → TypeDesc → Bool
  | .boolP, .bool => true
  | .dataclassP, .dataclass _ _ _ => true
  | .dictP, .dict _ => true
  | .enumP, .enumT _ _ _ => true
  | .floatP, .float => true
  | .intP, .int => true
  | .listP, .list _ => true
  | .noneP, .none => true
  | .strP, .str => true
  | .unionP, .union _ => true
  | _, _ => false

/-- Model of `FunctionWrapper.parse_argument` dispatch: the first parser in the
list whose `can_parse` matches wins. -/
def dispatchParser (parsers : List ParserKind) (t : TypeDesc) : Option ParserKind :=
  parsers.find? (fun p => canParse p t)

/-! ## Serialization (`functions/functions.py`) -/

mutual

/-- A model of `json.dumps` on JSON values (escaping of special
characters inside strings is not modelled; no claim inspects the
produced text). -/
def jsonDumps : JsonValue → String
  | .null => "null"
  | .bool true => "true"
  | .bool false => "false"
  | .int n => toString n
  | .float lit => lit
  | .str s => "\"" ++ s ++ "\""
  | .arr elems => "[" ++ String.intercalate ", " (jsonDumpsList elems) ++ "]"
  | .obj fields => "\x7b" ++ String.intercalate ", " (jsonDumpsObj fields) ++ "\x7d"

/-- Elements of a serialized JSON array. -/
def jsonDumpsList : List JsonValue → List String
  | [] => []
  | v :: rest => jsonDumps v :: jsonDumpsList rest

/-- Entries of a serialized JSON object. -/
def jsonDumpsObj : List (String × JsonValue) → List String
  | [] => []
  | (k, v) :: rest => ("\"" ++ k ++ "\": " ++ jsonDumps v) :: jsonDumpsObj rest

end

/-- A model of Python `str()` on JSON values (only the cases that
differ from JSON rendering matter: `None`, `True`, `False`, bare
strings; container rendering is approximated; no claim inspects the
text). -/
def pyToStr : JsonValue → String
  | .null => "None"
  | .bool true => "True"
  | .bool false => "False"
  | .int n => toString n
  | .float lit => lit
  | .str s => s
  | v => jsonDumps v

/-- Model of `RawFunctionResult` from `functions/functions.py`: a raw result
plus the `serialize` flag. -/
structure RawFunctionResultM where
  result : JsonValue
  serialize : Bool := true
deriving Repr

/-- Model of `RawFunctionResult.serialized`: `json.dumps` under
`serialize=True`, `str()` otherwise. -/
def RawFunctionResultM.serialized (r : RawFunctionResultM) : String :=
  if r.serialize then jsonDumps r.result else pyToStr r.result

/-- Model of `FunctionResult` from `functions/functions.py`. -/
structure FunctionResultM where
  name : String
  raw_result : Option RawFunctionResultM
  remove_call : Bool := false
  interpret_return_as_response : Bool := false
deriving Repr

/-- Model of `FunctionResult.content`: the serialized raw result, when any. -/
def FunctionResultM.content (r : FunctionResultM) : Option String :=
  r.raw_result.map RawFunctionResultM.serialized

/-! ## The function wrapper (`functions/wrapper.py`) -/

/-- Python truthiness of an optional string: `None` and the empty
string are falsy. -/
def truthy : Option String → Bool
  | Option.none => false
  | Option.some s => !s.isEmpty

/-- Python `a or b` on optional strings: `b` when `a` is falsy. -/
def pyOrStr (a b : Option String) : Option String :=
  if truthy a then a else b

/-- One parameter of the wrapped callable's signature, as reflection
sees it: name, annotation, whether it has a default, and its entry in
`arg_docs` (present only for parameters with a truthy docstring
description). -/
structure ParamSpec where
  name : String
  type : TypeDesc
  hasDefault : Bool := false
  doc : Option String := Option.none
deriving Repr

/-- Model of `FunctionWrapper`: the wrapped callable is modelled by its
reflected name, its parsed docstring short description, its parameters
in declaration order, and its behaviour on parsed keyword arguments. -/
structure FunctionWrapperM where
  funcName : String
  funcShortDescription : Option String := Option.none
  params : List ParamSpec
  func : List (String × PyValue) → PyValue
  nameOverride : Option String := Option.none
  descriptionOverride : Option String := Option.none
  save_return : Bool := true
  serialize : Bool := true
  remove_call : Bool := false
  interpret_as_response : Bool := false

namespace FunctionWrapperM

/-- Model of `FunctionWrapper.name`: `self._name or self.func.__name__`. -/
def wrapperName (w : FunctionWrapperM) : String :=
  (pyOrStr w.nameOverride (Option.some w.funcName)).getD ""

/-- Model of `FunctionWrapper.required_arguments`: the parameters without a
default value, in declaration order. -/
def requiredArguments (w : FunctionWrapperM) : List String :=
  (w.params.filter (fun p => !p.hasDefault)).map (fun p => p.name)

/-- Python `{**d, k: v}`: an existing key is updated in place (keeping
its position), a new key is appended. -/
def setKey : List (String × JsonValue) → String → JsonValue → List (String × JsonValue)
  | [], k, v => [(k, v)]
  | (k1, v1) :: rest, k, v =>
      if k1 = k then (k, v) :: rest else (k1, v1) :: setKey rest k v

/-- The per-parameter entry of `FunctionWrapper.arguments_schema`:
the parser's schema, with the parameter's doc description merged in
when `arg_docs` has an entry for it. -/
def paramSchema (p : ParamSpec) : JsonValue :=
  match argumentSchema p.type, p.doc with
  | .obj fields, Option.some d => .obj (setKey fields "description" (.str d))
  | schema, _ => schema

/-- Model of `FunctionWrapper.arguments_schema`: the properties object mapping
each parameter name to its schema. -/
def argumentsSchema (w : FunctionWrapperM) : JsonValue :=
  .obj (w.params.map (fun p => (p.name, paramSchema p)))

/-- Model of `FunctionWrapper.schema`: name and parameters always; the
`description` key is set to `self.parsed_docs.short_description or
self._description` and only when that expression is truthy.  (Note the
orientation: the docstring's short description is the left operand.) -/
def schema (w : FunctionWrapperM) : JsonValue :=
  let base : List (String × JsonValue) :=
    [("name", .str w.wrapperName),
     ("parameters", .obj
        [("type", .str "object"),
         ("properties", w.argumentsSchema),
         ("required", .arr (w.requiredArguments.map .str))])]
  if truthy w.funcShortDescription || truthy w.descriptionOverride then
    .obj (base ++
      [("description",
        .str ((pyOrStr w.funcShortDescription w.descriptionOverride).getD ""))])
  else .obj base

/-- The distinguished failure of the sequential argument-parsing pass:
a `KeyError` from `argument_parsers[name]` on an undeclared argument
name, or a propagating exception from `parse_value`. -/
inductive ArgPassError where
  | keyError : ArgPassError
  | parseError (e : ParseError) : ArgPassError

/-- The generator inside `parse_arguments`: arguments are visited in
the order of the supplied JSON object; each value is parsed by the
declared parser for its name; an undeclared name raises `KeyError`. -/
def parseArgsPass (params : List ParamSpec) :
    List (String × JsonValue) → Except ArgPassError (List (String × PyValue))
  | [] => .ok []
  | (n, v) :: rest =>
      match params.find? (fun p => p.name == n) with
      | Option.none => .error .keyError
      | Option.some p =>
          match parseValue p.type v with
          | .error e => .error (.parseError e)
          | .ok pv =>
              match parseArgsPass params rest with
              | .error e => .error e
              | .ok pvs => .ok ((n, pv) :: pvs)

/-- Model of `FunctionWrapper.parse_arguments`: first verifies that every
declared parameter name (with or without a default) occurs among the
arguments, raising `BrokenSchemaError(arguments, arguments_schema)`
otherwise; then parses every supplied argument, turning a `KeyError`
(undeclared name) into the same `BrokenSchemaError` and letting parse
exceptions propagate. -/
def parseArguments (w : FunctionWrapperM) (args : List (String × JsonValue)) :
    Except ParseError (List (String × PyValue)) :=
  if !(w.params.all (fun p => args.any (fun a => a.1 == p.name))) then
    .error (.brokenSchema (.obj args) w.argumentsSchema)
  else
    match parseArgsPass w.params args with
    | .ok pvs => .ok pvs
    | .error .keyError => .error (.brokenSchema (.obj args) w.argumentsSchema)
    | .error (.parseError e) => .error e

/-- Model of `FunctionWrapper.__call__`: the callable applied to the parsed
keyword arguments. -/
def call (w : FunctionWrapperM) (args : List (String × JsonValue)) :
    Except ParseError PyValue :=
  (w.parseArguments args).map w.func

end FunctionWrapperM

/-! ## Function sets (`functions/basic_set.py`, `union.py`,
`togglable_set.py`) -/

/-- The exceptions a registered callable itself can raise when invoked
by `get_function_result` (for a `FunctionWrapper`: schema mismatches
and generic type errors from argument parsing).  `FunctionNotFoundError`
is reserved to the set-lookup layer and is not among them. -/
inductive CallError where
  | typeError (msg : String) : CallError
  | brokenSchema (response : JsonValue) (schema : JsonValue) : CallError
deriving Repr

/-- The exceptions `run_function` can raise.  The repository defines
*two distinct* `FunctionNotFoundError` classes with unrelated bases:
the top-level `exceptions.FunctionNotFoundError` (`exceptions.py:13`),
which is what `basic_set.py` and `togglable_set.py` import and raise,
and the vestigial `functions.exceptions.FunctionNotFoundError`
(`functions/exceptions.py:8`), which is what `union.py` imports and
suppresses but which nothing in the call tree raises.  Neither is a
subclass of the other, so they are modelled as separate
constructors. -/
inductive SkillError where
  | functionNotFound (name : String) : SkillError
  | functionsPkgFunctionNotFound (name : String) : SkillError
  | invalidJson (response : String) : SkillError
  | callError (e : CallError) : SkillError
deriving Repr

/-- The `OpenAIFunction` protocol (`functions/functions.py`): a name,
a schema, four policy flags, and the callable itself (what `__call__`
does on the decoded argument object). -/
structure OpenAIFunctionM where
  name : String
  schema : JsonValue := .null
  call : JsonValue → Except CallError JsonValue
  save_return : Bool := true
  serialize : Bool := true
  remove_call : Bool := false
  interpret_as_response : Bool := false

/-- A function call request (`openai_types.FunctionCall`): a name and
a raw JSON argument string. -/
structure FunctionCallM where
  name : String
  arguments : String
deriving Repr, DecidableEq

/-- A JSON decoder standing for `json.loads`: `Option.none` models a
`JSONDecodeError`. -/
abbrev JsonDecoder := String → Option JsonValue

namespace BasicFunctionSet

/-- Model of `BasicFunctionSet.find_function`: the first function with the
requested name, else `FunctionNotFoundError`. -/
def findFunction (functions : List OpenAIFunctionM) (name : String) :
    Except SkillError OpenAIFunctionM :=
  match functions.find? (fun f => f.name == name) with
  | Option.some f => .ok f
  | Option.none => .error (.functionNotFound name)

/-- Model of `BasicFunctionSet.get_function_result`: run the callable; keep the
raw result only under `save_return`. -/
def getFunctionResult (f : OpenAIFunctionM) (args : JsonValue) :
    Except SkillError (Option RawFunctionResultM) :=
  match f.call args with
  | .error e => .error (.callError e)
  | .ok result => .ok (if f.save_return then Option.some ⟨result, f.serialize⟩ else Option.none)

/-- Model of `BasicFunctionSet.run_function`: find the function, JSON-decode the
argument string (`InvalidJsonError` on failure), run it, and package a
`FunctionResult` with the function's policy flags. -/
def runFunction (dec : JsonDecoder) (functions : List OpenAIFunctionM)
    (input : FunctionCallM) : Except SkillError FunctionResultM :=
  match findFunction functions input.name with
  | .error e => .error e
  | .ok f =>
      match dec input.arguments with
      | Option.none => .error (.invalidJson input.arguments)
      | Option.some args =>
          match getFunctionResult f args with
          | .error e => .error e
          | .ok result => .ok ⟨f.name, result, f.remove_call, f.interpret_as_response⟩

/-- Model of `BasicFunctionSet.functions_schema`: the member schemas in order. -/
def functionsSchema (functions : List OpenAIFunctionM) : List JsonValue :=
  functions.map (fun f => f.schema)

/-- Whether the set has a function of the given name (the condition
under which `find_function` succeeds). -/
def hasFunction (functions : List OpenAIFunctionM) (name : String) : Bool :=
  functions.any (fun f => f.name == name)

end BasicFunctionSet

/-- Model of `UnionSkillSet`: an ordered list of child sets plus the inherited
local `BasicFunctionSet` function list.  Child sets are modelled as
basic sets (the shape the claim exercises). -/
structure UnionSkillSetM where
  sets : List (List OpenAIFunctionM)
  functions : List OpenAIFunctionM := []

namespace UnionSkillSetM

/-- The loop of `UnionSkillSet.run_function`: each child set tried in
order under `contextlib.suppress(FunctionNotFoundError)`, where the
suppressed name is `union.py`'s import `from .exceptions import
FunctionNotFoundError` — the `functions/exceptions.py` class.  Only
that class falls through to the next child; every other outcome —
success, another exception, and in particular the *top-level*
`exceptions.FunctionNotFoundError` that `find_function` actually
raises — is returned or propagated as is.  After the children, the
local set runs without suppression. -/
def runLoop (dec : JsonDecoder) (localFns : List OpenAIFunctionM)
    (input : FunctionCallM) : List (List OpenAIFunctionM) → Except SkillError FunctionResultM
  | [] => BasicFunctionSet.runFunction dec localFns input
  | s :: rest =>
      match BasicFunctionSet.runFunction dec s input with
      | .error (.functionsPkgFunctionNotFound _) => runLoop dec localFns input rest
      | r => r

/-- Model of `UnionSkillSet.run_function`. -/
def runFunction (dec : JsonDecoder) (u : UnionSkillSetM) (input : FunctionCallM) :
    Except SkillError FunctionResultM :=
  runLoop dec u.functions input u.sets

/-- Model of `UnionSkillSet.functions_schema`: the local schema followed by
every child's schema, in order. -/
def functionsSchema (u : UnionSkillSetM) : List JsonValue :=
  BasicFunctionSet.functionsSchema u.functions ++
    (u.sets.map BasicFunctionSet.functionsSchema).flatten

end UnionSkillSetM

/-- Model of `TogglableSet`: a basic set behind an enable function, with the
`enabled` flag modelled explicitly. -/
structure TogglableSetM where
  functions : List OpenAIFunctionM
  enabled : Bool := false
  enable_function_name : String
  enable_function_description : Option String := Option.none

namespace TogglableSetM

/-- Model of `TogglableSet._enable_function_schema`: the enable function's name
with an empty `properties` object; `description` only when the
configured description is truthy. -/
def enableFunctionSchema (s : TogglableSetM) : JsonValue :=
  .obj ([("name", .str s.enable_function_name),
         ("parameters", .obj [("type", .str "object"), ("properties", .obj [])])] ++
    (if truthy s.enable_function_description then
      [("description", JsonValue.str (s.enable_function_description.getD ""))]
     else []))

/-- Model of `TogglableSet.functions_schema`: only the enable schema while
disabled, the full member schema once enabled. -/
def functionsSchema (s : TogglableSetM) : List JsonValue :=
  if s.enabled then BasicFunctionSet.functionsSchema s.functions
  else [s.enableFunctionSchema]

/-- Model of `TogglableSet.run_function`, with the state transition made
explicit: while disabled, the enable name flips the flag and returns
`FunctionResult(name, None, True)` (no content), any other name raises
`FunctionNotFoundError`; once enabled, the call is delegated to the
wrapped basic set. -/
def runFunction (dec : JsonDecoder) (s : TogglableSetM) (input : FunctionCallM) :
    TogglableSetM × Except SkillError FunctionResultM :=
  if !s.enabled then
    if input.name = s.enable_function_name then
      ({ s with enabled := true },
       .ok ⟨s.enable_function_name, Option.none, true, false⟩)
    else (s, .error (.functionNotFound input.name))
  else (s, BasicFunctionSet.runFunction dec s.functions input)

end TogglableSetM

/-! ## The conversation engine (`conversation.py`) -/

/-- A conversation message as wrapped by `openai_types.Message`.  The
`function_call` property is `Option.some` exactly for an assistant
message with `content = None` carrying a `function_call` entry. -/
inductive Msg where
  | user (role content : String) : Msg
  | assistantContent (content : String) : Msg
  | assistantToolCall (call : FunctionCallM) : Msg
  | functionResult (name : String) (content : Option String) : Msg
deriving Repr, DecidableEq

/-- Model of `Message.function_call`. -/
def Msg.functionCall : Msg → Option FunctionCallM
  | .assistantToolCall call => Option.some call
  | _ => Option.none

namespace Conversation

/-- Model of `Conversation.remove_function_call`: indexes `self.messages[-1]`
(so an empty history raises `IndexError`, modelled as `Option.none`)
and pops the last message exactly when it is a tool-call message whose
call name equals the given name. -/
def removeFunctionCall (msgs : List Msg) (name : String) : Option (List Msg) :=
  match msgs.getLast? with
  | Option.none => Option.none
  | Option.some m =>
      if (m.functionCall.map (fun c => c.name == name)).getD false then
        Option.some msgs.dropLast
      else Option.some msgs

/-- Model of `Conversation._add_function_result`: nothing is appended without
content; with content, an assistant response or a function message is
appended by the `interpret_return_as_response` flag.  The boolean is
the method's return value. -/
def addFunctionResultInner (msgs : List Msg) (r : FunctionResultM) : List Msg × Bool :=
  match r.content with
  | Option.none => (msgs, false)
  | Option.some c =>
      (msgs ++ [if r.interpret_return_as_response then
                  Msg.assistantContent c
                else Msg.functionResult r.name c], true)

/-- Model of `Conversation.add_function_result`: the `remove_call` pop happens
first, then the content (if any) is appended. -/
def addFunctionResult (msgs : List Msg) (r : FunctionResultM) :
    Option (List Msg × Bool) := do
  let msgs1 ← if r.remove_call then removeFunctionCall msgs r.name else pure msgs
  pure (addFunctionResultInner msgs1 r)

/-- One backend outcome for a single request attempt: a reply, or a
`RateLimitError` whose headers encode a wait interval. -/
inductive BackendReply where
  | success (message : String) : BackendReply
  | rateLimited (wait : Nat) : BackendReply
deriving Repr, DecidableEq

/-- The observable outcome of `_generate_message`: the returned reply
together with the sleeps performed, the re-raised rate-limit failure
together with the sleeps performed, or the end of the supplied backend
trace (the loop would keep querying the backend). -/
inductive GenOutcome where
  | returned (message : String) (sleeps : List Nat) : GenOutcome
  | raisedRateLimit (sleeps : List Nat) : GenOutcome
  | traceExhausted (sleeps : List Nat) : GenOutcome
deriving Repr, DecidableEq

/-- Prepend a performed sleep to an outcome's sleep log. -/
def GenOutcome.afterSleep (w : Nat) : GenOutcome → GenOutcome
  | .returned m sleeps => .returned m (w :: sleeps)
  | .raisedRateLimit sleeps => .raisedRateLimit (w :: sleeps)
  | .traceExhausted sleeps => .traceExhausted (w :: sleeps)

/-- The `while True` loop of `Conversation._generate_message`, run
against a finite trace of backend outcomes: a success is returned
immediately; on a rate limit, the failure is re-raised when the
remaining budget is exactly `0`, otherwise the budget is decremented
and the engine sleeps for the backend-computed interval and retries. -/
def generateLoop (retries : Int) : List BackendReply → GenOutcome
  | [] => .traceExhausted []
  | .success m :: _ => .returned m []
  | .rateLimited w :: rest =>
      if retries = 0 then .raisedRateLimit []
      else (generateLoop (retries - 1) rest).afterSleep w

/-- Model of `Conversation._generate_message`: `retries is None` is normalized
to `-1` before the loop. -/
def generateMessage (retries : Option Int) (trace : List BackendReply) : GenOutcome :=
  generateLoop (match retries with | Option.none => -1 | Option.some r => r) trace

end Conversation

/-! ## Claim C2: union alternatives in declaration order -/

/-- The first-success-with-TypeError-fallthrough combination of the
alternatives' outcomes: the outcome of the first alternative that does
not fail with a `TypeError` (a success, or an aborting
`BrokenSchemaError`); a final `TypeError` when every alternative fails
with a `TypeError`. -/
def unionFirstOutcome : List (Except ParseError PyValue) → Except ParseError PyValue
  | [] => .error (.typeError "Expected one of the union alternatives")
  | .ok r :: _ => .ok r
  | .error (.typeError _) :: rest => unionFirstOutcome rest
  | .error e :: _ => .error e

/-- C2 (counterexample): for the union `[int, bool]` and the JSON value
`true`, the second alternative (`bool`) parses the value without error,
yet `parse_value` on the union fails — the first alternative's
`BrokenSchemaError` aborts the union before `bool` is tried,
contradicting the claim that a union fails only when every alternative
fails and that an alternative's failure never aborts the union. -/
theorem unionParse_aborts_on_brokenSchema :
    parseValue (.union [.int, .bool]) (.bool true) =
      .error (.brokenSchema (.bool true) (.obj [("type", .str "integer")]))
    ∧ parseValue .bool (.bool true) = .ok (.bool true) := by
  constructor
  · simp [parseValue, parseUnionAlts, TypeDesc.argumentSchema]
  · simp [parseValue]

/-- C2 (amended): `UnionParser.parse_value` tries the alternatives in
declaration order; an alternative failing with a `TypeError` falls
through to the next; the union returns the outcome of the first
alternative that does not fail with a `TypeError` — its success, or its
non-`TypeError` exception (`BrokenSchemaError`), which aborts the union
— and fails with a `TypeError` only when every alternative fails with a
`TypeError`. -/
theorem unionParse_first_non_typeError_outcome (alts : List TypeDesc) (v : JsonValue) :
    parseValue (.union alts) v =
      unionFirstOutcome (alts.map (fun t => parseValue t v)) := by
  have hu : parseValue (.union alts) v = parseUnionAlts alts v := by
    simp [parseValue]
  rw [hu]; clear hu
  induction alts with
  | nil => simp [parseUnionAlts, unionFirstOutcome]
  | cons t rest ih =>
      rw [parseUnionAlts]
      cases h : parseValue t v with
      | ok r => simp [unionFirstOutcome, h]
      | error e =>
          cases e with
          | typeError msg => simpa [unionFirstOutcome, h] using ih
          | brokenSchema a b => simp [unionFirstOutcome, h]

/-- C2 (amended, witness): the amended union rule evaluated at the
union `[int, str]` on the string `"x"`. -/
theorem unionParse_first_non_typeError_outcome_witness :
    parseValue (.union [.int, .str]) (.str "x") =
      unionFirstOutcome [parseValue .int (.str "x"), parseValue .str (.str "x")] :=
  unionParse_first_non_typeError_outcome [.int, .str] (.str "x")

/-! ## Claim C3: failures of structural validation -/

/-- C3: the failing inputs of the repository's own
`test_function_wrapper.py::test_array` and `::test_dict`: a string
value for a `List[Union[int, str]]` parameter and a list value for a
`Dict[str, int]` parameter make `parse_value` raise a *generic*
`TypeError`, not the dedicated `BrokenSchemaError` the claim (and the
tests, via `pytest.raises(BrokenSchemaError)`) require. -/
theorem listParse_and_dictParse_raise_generic_typeError :
    parseValue (.list (.union [.int, .str])) (.str "test") =
      .error (.typeError "Expected list")
    ∧ parseValue (.dict .int) (.arr [.arr [.int 1, .int 2], .arr [.int 3, .int 4]]) =
      .error (.typeError "Expected dict") := by
  constructor <;> simp [parseValue]

/-! ## Claim C5: booleans never parse as integers -/

/-- C5: a JSON boolean never parses as the integer type — `IntParser`
rejects every boolean with a `BrokenSchemaError` carrying the value and
the integer schema (booleans being `int` instances in Python
notwithstanding) — and `BoolParser` precedes `IntParser` in the default
parser list. -/
theorem intParse_rejects_booleans_and_bool_precedes_int :
    (∀ b : Bool, parseValue .int (.bool b) =
      .error (.brokenSchema (.bool b) (.obj [("type", .str "integer")])))
    ∧ defargparsers.indexOf .boolP < defargparsers.indexOf .intP := by
  constructor
  · intro b
    simp [parseValue, TypeDesc.argumentSchema]
  · decide

/-- C5 (witness): the boolean-rejection half of C5 evaluated at the
JSON value `true`. -/
theorem intParse_rejects_booleans_witness :
    parseValue .int (.bool true) =
      .error (.brokenSchema (.bool true) (.obj [("type", .str "integer")])) :=
  intParse_rejects_booleans_and_bool_precedes_int.1 true

/-! ## Claim C6: declaration order decides overlapping unions -/

/-- C6: when a value is valid under both alternatives, the union
`[A, B]` resolves it as `A` and the union `[B, A]` resolves it as `B` —
declaration order alone decides. -/
theorem unionParse_declaration_order_decides (A B : TypeDesc) (v : JsonValue)
    (a b : PyValue) (ha : parseValue A v = .ok a) (hb : parseValue B v = .ok b) :
    parseValue (.union [A, B]) v = .ok a
    ∧ parseValue (.union [B, A]) v = .ok b := by
  constructor
  · have hu : parseValue (.union [A, B]) v = parseUnionAlts [A, B] v := by
      simp [parseValue]
    rw [hu, parseUnionAlts, ha]
  · have hu : parseValue (.union [B, A]) v = parseUnionAlts [B, A] v := by
      simp [parseValue]
    rw [hu, parseUnionAlts, hb]

/-- C6 (witness): the string `"LOW"` is valid both as a plain string
and as a member of an enum `Priority`; each ordering of the union
resolves it as its first alternative. -/
theorem unionParse_declaration_order_decides_witness :
    parseValue (.union [.str, .enumT "Priority" Option.none ["LOW"]]) (.str "LOW") =
      .ok (.str "LOW")
    ∧ parseValue (.union [.enumT "Priority" Option.none ["LOW"], .str]) (.str "LOW") =
      .ok (.enumMember "Priority" "LOW") :=
  unionParse_declaration_order_decides .str (.enumT "Priority" Option.none ["LOW"])
    (.str "LOW") (.str "LOW") (.enumMember "Priority" "LOW")
    (by simp [parseValue]) (by simp [parseValue])

/-! ## Claim C4: description override precedence -/

/-- C4: a wrapped callable with both a docstring short description and
an explicit description override.  The emitted schema uses the
*docstring* description — `schema` computes
`self.parsed_docs.short_description or self._description`, so the
docstring takes precedence and the override is used only when the
docstring has no short description, the reverse of the documented
override semantics (and of the `name` property, which computes
`self._name or self.func.__name__`). -/
theorem schema_description_prefers_docstring_over_override :
    FunctionWrapperM.schema
      { funcName := "test_function",
        funcShortDescription := Option.some "Test function docstring.",
        params := [],
        func := fun _ => PyValue.none,
        descriptionOverride := Option.some "Override description." } =
      .obj [("name", .str "test_function"),
            ("parameters", .obj
              [("type", .str "object"),
               ("properties", .obj []),
               ("required", .arr [])]),
            ("description", .str "Test function docstring.")] := by
  rfl

/-! ## Claim C7: rate-limit retry budget -/

/-- C7: the retry behaviour of `_generate_message`:
* budget `0`: a leading rate-limit failure is re-raised immediately,
  with no sleep and no retry;
* budget `n > 0`: after `k ≤ n` rate-limit failures the engine has
  slept `k` times and a following success is returned (budget `1`
  yields exactly one delayed retry);
* budget `n` exhausted by `n + 1` rate-limit failures: re-raised after
  `n` sleeps;
* budget `None` (unlimited): the failure is never re-raised, whatever
  the backend trace;
* a successful reply is returned immediately, with no sleeps, under
  every budget. -/
theorem generateMessage_retry_budget :
    (∀ (w : Nat) (rest : List Conversation.BackendReply),
      Conversation.generateMessage (Option.some 0) (.rateLimited w :: rest) =
        .raisedRateLimit [])
    ∧ (∀ (n : Nat) (waits : List Nat) (m : String) (rest : List Conversation.BackendReply),
        waits.length ≤ n →
        Conversation.generateMessage (Option.some (n : Int))
            (waits.map .rateLimited ++ .success m :: rest) =
          .returned m waits)
    ∧ (∀ (n : Nat) (waits : List Nat) (rest : List Conversation.BackendReply),
        waits.length = n + 1 →
        Conversation.generateMessage (Option.some (n : Int))
            (waits.map .rateLimited ++ rest) =
          .raisedRateLimit (waits.take n))
    ∧ (∀ (trace : List Conversation.BackendReply) (sleeps : List Nat),
        Conversation.generateMessage Option.none trace ≠ .raisedRateLimit sleeps)
    ∧ (∀ (r : Option Int) (m : String) (rest : List Conversation.BackendReply),
        Conversation.generateMessage r (.success m :: rest) = .returned m []) := by
  have hneg : ∀ (trace : List Conversation.BackendReply) (r : Int), r < 0 →
      ∀ sleeps, Conversation.generateLoop r trace ≠ .raisedRateLimit sleeps := by
    intro trace
    induction trace with
    | nil => intro r _ sleeps h; simp [Conversation.generateLoop] at h
    | cons reply rest ih =>
        intro r hr sleeps h
        cases reply with
        | success m => simp [Conversation.generateLoop] at h
        | rateLimited w =>
            rw [Conversation.generateLoop, if_neg (by omega)] at h
            cases hrec : Conversation.generateLoop (r - 1) rest with
            | returned m s =>
                rw [hrec] at h; simp [Conversation.GenOutcome.afterSleep] at h
            | raisedRateLimit s => exact ih (r - 1) (by omega) s hrec
            | traceExhausted s =>
                rw [hrec] at h; simp [Conversation.GenOutcome.afterSleep] at h
  refine ⟨?_, ?_, ?_, ?_, ?_⟩
  · intro w rest
    simp [Conversation.generateMessage, Conversation.generateLoop]
  · intro n waits
    induction waits generalizing n with
    | nil => intro m rest _; simp [Conversation.generateMessage, Conversation.generateLoop]
    | cons w ws ih =>
        intro m rest hlen
        simp only [List.length_cons] at hlen
        have hcast : ((n : Int) - 1) = ((n - 1 : Nat) : Int) := by omega
        have hih := ih (n - 1) m rest (by omega)
        simp only [Conversation.generateMessage] at hih ⊢
        simp only [List.map, List.cons_append, Conversation.generateLoop]
        rw [if_neg (by omega), hcast]
        simp only [List.append_eq]
        rw [hih]
        rfl
  · intro n waits
    induction waits generalizing n with
    | nil => intro rest h; simp at h
    | cons w ws ih =>
        intro rest hlen
        by_cases hn : n = 0
        · subst hn
          simp [Conversation.generateMessage, Conversation.generateLoop]
        · obtain ⟨k, rfl⟩ : ∃ k, n = k + 1 := ⟨n - 1, by omega⟩
          have hcast : (((k + 1 : Nat) : Int) - 1) = ((k : Nat) : Int) := by push_cast; ring
          have hih := ih k rest (by simpa using hlen)
          simp only [Conversation.generateMessage] at hih ⊢
          simp only [List.map, List.cons_append, Conversation.generateLoop]
          rw [if_neg (by omega), hcast]
          simp only [List.append_eq]
          rw [hih]
          simp [Conversation.GenOutcome.afterSleep, List.take_succ_cons]
  · intro trace sleeps
    exact hneg trace (-1) (by omega) sleeps
  · intro r m rest
    cases r <;> simp [Conversation.generateMessage, Conversation.generateLoop]

/-- C7 (witness): budget `1` with one rate limit then a success yields
one delayed retry and the success; budget `0` re-raises at once;
budget `1` against two rate limits re-raises after one sleep. -/
theorem generateMessage_retry_budget_witness :
    Conversation.generateMessage (Option.some 1)
      [.rateLimited 2, .success "ok"] = .returned "ok" [2]
    ∧ Conversation.generateMessage (Option.some 0)
      [.rateLimited 2, .success "ok"] = .raisedRateLimit []
    ∧ Conversation.generateMessage (Option.some 1)
      [.rateLimited 2, .rateLimited 3] = .raisedRateLimit [2] := by
  refine ⟨?_, ?_, ?_⟩
  · exact generateMessage_retry_budget.2.1 1 [2] "ok" [] (by decide)
  · exact generateMessage_retry_budget.1 2 [.success "ok"]
  · exact generateMessage_retry_budget.2.2.1 1 [2, 3] [] (by decide)

/-! ## Claim C8: togglable set gating -/

/-- C8: while the `enabled` flag is false, `functions_schema` is
exactly the enable function's schema (name, empty parameters object,
optional description) and `run_function` on any other name raises
`FunctionNotFoundError`; calling the enable name flips the flag and
yields a result with no content; once enabled, `functions_schema`
lists all member schemas and `run_function` delegates to the wrapped
basic set with the flag staying true. -/
theorem togglableSet_gating (dec : JsonDecoder) (s : TogglableSetM)
    (input : FunctionCallM) :
    (s.enabled = false →
      s.functionsSchema =
        [.obj ([("name", .str s.enable_function_name),
                ("parameters", .obj [("type", .str "object"), ("properties", .obj [])])] ++
          (if truthy s.enable_function_description then
            [("description", JsonValue.str (s.enable_function_description.getD ""))]
          else []))])
    ∧ (s.enabled = false → input.name ≠ s.enable_function_name →
        s.runFunction dec input = (s, .error (.functionNotFound input.name)))
    ∧ (s.enabled = false → input.name = s.enable_function_name →
        s.runFunction dec input =
          ({ s with enabled := true },
           .ok ⟨s.enable_function_name, Option.none, true, false⟩)
        ∧ FunctionResultM.content ⟨s.enable_function_name, Option.none, true, false⟩ =
            Option.none)
    ∧ (s.enabled = true →
        s.functionsSchema = s.functions.map (fun f => f.schema)
        ∧ s.runFunction dec input = (s, BasicFunctionSet.runFunction dec s.functions input)) := by
  refine ⟨?_, ?_, ?_, ?_⟩
  · intro hd
    simp [TogglableSetM.functionsSchema, TogglableSetM.enableFunctionSchema, hd]
  · intro hd hne
    simp [TogglableSetM.runFunction, hd, hne]
  · intro hd heq
    refine ⟨?_, rfl⟩
    simp [TogglableSetM.runFunction, hd, heq]
  · intro he
    refine ⟨?_, ?_⟩
    · simp [TogglableSetM.functionsSchema, BasicFunctionSet.functionsSchema, he]
    · simp [TogglableSetM.runFunction, he]

/-- The JSON decoder of the C8 witness: every argument string decodes
to the empty JSON object. -/
def c8Dec : JsonDecoder := fun _ => Option.some (.obj [])

/-- The togglable set of the C8 witness: one member function behind an
enable function named `"enable_skill"`. -/
def c8Set : TogglableSetM :=
  { functions := [{ name := "member", schema := .str "member-schema",
                    call := fun _ => .ok (.str "ran") }],
    enable_function_name := "enable_skill" }

/-- C8 (witness): on a concrete disabled set, the schema is the enable
schema alone, a member call raises `FunctionNotFoundError`, and the
enable call flips the flag with a contentless result. -/
theorem togglableSet_gating_witness :
    TogglableSetM.functionsSchema c8Set =
      [.obj [("name", .str "enable_skill"),
             ("parameters", .obj [("type", .str "object"), ("properties", .obj [])])]]
    ∧ TogglableSetM.runFunction c8Dec c8Set ⟨"member", "\x7b\x7d"⟩ =
        (c8Set, .error (.functionNotFound "member"))
    ∧ TogglableSetM.runFunction c8Dec c8Set ⟨"enable_skill", "\x7b\x7d"⟩ =
        ({ c8Set with enabled := true },
         .ok ⟨"enable_skill", Option.none, true, false⟩) := by
  refine ⟨?_, ?_, ?_⟩
  · simpa using (togglableSet_gating c8Dec c8Set ⟨"member", "\x7b\x7d"⟩).1 rfl
  · exact (togglableSet_gating c8Dec c8Set ⟨"member", "\x7b\x7d"⟩).2.1 rfl (by decide)
  · exact ((togglableSet_gating c8Dec c8Set ⟨"enable_skill", "\x7b\x7d"⟩).2.2.1 rfl rfl).1

/-! ## Claim C10: remove_call frame effect -/

/-- The condition under which `add_function_result` strikes the last
message: it is an assistant tool-call message whose call name equals
the result's name. -/
def lastIsMatchingToolCall (msgs : List Msg) (name : String) : Bool :=
  match msgs.getLast? with
  | Option.some (Msg.assistantToolCall c) => c.name == name
  | _ => false

/-- The messages a function result appends: nothing without content;
with content, one assistant response or one function message by the
`interpret_return_as_response` flag. -/
def resultMessages (r : FunctionResultM) : List Msg :=
  match r.content with
  | Option.none => []
  | Option.some c =>
      [if r.interpret_return_as_response then Msg.assistantContent c
       else Msg.functionResult r.name c]

/-- C10: on a non-empty conversation, a result with `remove_call` pops
the last message iff that message is an assistant tool-call whose call
name equals the result's name, leaves every other message unchanged,
and appends the result's content (when present) after that check; the
returned flag says whether content was appended. -/
theorem addFunctionResult_remove_call_frame (msgs : List Msg) (r : FunctionResultM)
    (hne : msgs ≠ []) (hrc : r.remove_call = true) :
    Conversation.addFunctionResult msgs r =
      Option.some
        ((if lastIsMatchingToolCall msgs r.name then msgs.dropLast else msgs) ++
          resultMessages r,
         r.content.isSome) := by
  obtain ⟨m, hm⟩ : ∃ m, msgs.getLast? = Option.some m :=
    Option.isSome_iff_exists.mp (by simpa using List.getLast?_isSome.mpr hne)
  have hrem : Conversation.removeFunctionCall msgs r.name =
      Option.some (if lastIsMatchingToolCall msgs r.name then msgs.dropLast else msgs) := by
    rw [Conversation.removeFunctionCall, hm]
    rw [lastIsMatchingToolCall, hm]
    cases m with
    | assistantToolCall c => simp [Msg.functionCall, apply_ite Option.some]
    | user role content => simp [Msg.functionCall]
    | assistantContent content => simp [Msg.functionCall]
    | functionResult name content => simp [Msg.functionCall]
  simp only [Conversation.addFunctionResult, hrc, if_true, hrem, Option.pure_def,
    Option.bind_some, Option.some.injEq]
  cases hc : r.content with
  | none => simp [Conversation.addFunctionResultInner, resultMessages, hc]
  | some c => simp [Conversation.addFunctionResultInner, resultMessages, hc]

/-- C10 (witness): a two-message conversation ending in a tool call to
`"f"`, and a `remove_call` result named `"f"` with serialized content:
the tool-call message is popped, the user message is untouched, and the
function message is appended. -/
theorem addFunctionResult_remove_call_frame_witness :
    Conversation.addFunctionResult
      [Msg.user "user" "hi", Msg.assistantToolCall ⟨"f", "\x7b\x7d"⟩]
      ⟨"f", Option.some ⟨.str "out", true⟩, true, false⟩ =
      Option.some ([Msg.user "user" "hi", Msg.functionResult "f" "\"out\""], true) := by
  have h := addFunctionResult_remove_call_frame
    [Msg.user "user" "hi", Msg.assistantToolCall ⟨"f", "\x7b\x7d"⟩]
    ⟨"f", Option.some ⟨.str "out", true⟩, true, false⟩ (by simp) rfl
  simpa [lastIsMatchingToolCall, resultMessages, FunctionResultM.content,
    RawFunctionResultM.serialized, jsonDumps] using h

/-! ## Claim C9: argument presence and parsing -/

/-- A successful sequential pass parsed every supplied argument through
the parser declared for its name. -/
theorem parseArgsPass_ok_spec (params : List ParamSpec)
    (args : List (String × JsonValue)) (L : List (String × PyValue))
    (hok : FunctionWrapperM.parseArgsPass params args = .ok L) :
    ∀ nv ∈ args, ∃ p ∈ params, p.name = nv.1 ∧
      ∃ pv, parseValue p.type nv.2 = .ok pv ∧ (nv.1, pv) ∈ L := by
  induction args generalizing L with
  | nil => intro nv hnv; cases hnv
  | cons a rest ih =>
      rw [FunctionWrapperM.parseArgsPass] at hok
      cases hfind : params.find? (fun p => p.name == a.1) with
      | none => simp only [hfind] at hok; exact Except.noConfusion hok
      | some p =>
          simp only [hfind] at hok
          cases hpv : parseValue p.type a.2 with
          | error e => simp only [hpv] at hok; exact Except.noConfusion hok
          | ok pv =>
              simp only [hpv] at hok
              cases hrest : FunctionWrapperM.parseArgsPass params rest with
              | error e => simp only [hrest] at hok; exact Except.noConfusion hok
              | ok pvs =>
                  simp only [hrest, Except.ok.injEq] at hok
                  subst hok
                  intro nv hnv
                  rcases List.mem_cons.mp hnv with hnv | hnv
                  · subst hnv
                    exact ⟨p, List.mem_of_find?_eq_some hfind,
                      by simpa using List.find?_some hfind,
                      pv, hpv, List.mem_cons_self _ _⟩
                  · obtain ⟨q, hq, hqn, qv, hqv, hqmem⟩ := ih pvs hrest nv hnv
                    exact ⟨q, hq, hqn, qv, hqv, List.mem_cons_of_mem _ hqmem⟩

/-- When every supplied argument whose name is declared parses
successfully and some argument's name is undeclared, the sequential
pass stops with the `KeyError`. -/
theorem parseArgsPass_keyError (params : List ParamSpec)
    (args : List (String × JsonValue))
    (hparse : ∀ a ∈ args, ∀ p ∈ params, p.name = a.1 →
      (parseValue p.type a.2).isOk)
    (hunknown : ∃ a ∈ args, ∀ p ∈ params, p.name ≠ a.1) :
    FunctionWrapperM.parseArgsPass params args = .error .keyError := by
  induction args with
  | nil => simp at hunknown
  | cons a rest ih =>
      rw [FunctionWrapperM.parseArgsPass]
      cases hfind : params.find? (fun p => p.name == a.1) with
      | none => simp [hfind]
      | some p =>
          have hp : p ∈ params := List.mem_of_find?_eq_some hfind
          have hpn : p.name = a.1 := by simpa using List.find?_some hfind
          have hok := hparse a (List.mem_cons_self _ _) p hp hpn
          cases hpv : parseValue p.type a.2 with
          | error e => rw [hpv] at hok; cases hok
          | ok pv =>
              have hrest : FunctionWrapperM.parseArgsPass params rest = .error .keyError := by
                apply ih
                · intro b hb q hq hqn
                  exact hparse b (List.mem_cons_of_mem _ hb) q hq hqn
                · rcases hunknown with ⟨b, hb, hbn⟩
                  rcases List.mem_cons.mp hb with hb | hb
                  · subst hb
                    exact absurd hpn (hbn p hp)
                  · exact ⟨b, hb, hbn⟩
              simp [hfind, hpv, hrest]

/-- C9: `parse_arguments` raises `BrokenSchemaError(arguments,
arguments_schema)` whenever a declared parameter (with or without a
default) is absent from the argument object; a successful parse means
every supplied value went through its declared parser and the callable
is invoked with exactly the parsed values; an argument whose name
matches no declared parameter also yields the
`BrokenSchemaError(arguments, arguments_schema)` (provided the other
values parse). -/
theorem parseArguments_checks_and_invokes (w : FunctionWrapperM)
    (args : List (String × JsonValue)) :
    ((∃ p ∈ w.params, ∀ a ∈ args, a.1 ≠ p.name) →
      w.parseArguments args = .error (.brokenSchema (.obj args) w.argumentsSchema))
    ∧ (∀ L, w.parseArguments args = .ok L →
        w.call args = .ok (w.func L)
        ∧ ∀ nv ∈ args, ∃ p ∈ w.params, p.name = nv.1 ∧
            ∃ pv, parseValue p.type nv.2 = .ok pv ∧ (nv.1, pv) ∈ L)
    ∧ ((∀ a ∈ args, ∀ p ∈ w.params, p.name = a.1 → (parseValue p.type a.2).isOk) →
       (∃ a ∈ args, ∀ p ∈ w.params, p.name ≠ a.1) →
        w.parseArguments args = .error (.brokenSchema (.obj args) w.argumentsSchema)) := by
  refine ⟨?_, ?_, ?_⟩
  · rintro ⟨p, hp, hmiss⟩
    have hall : w.params.all (fun p => args.any (fun a => a.1 == p.name)) = false := by
      rw [List.all_eq_false]
      refine ⟨p, hp, ?_⟩
      intro hcontra
      rw [List.any_eq_true] at hcontra
      obtain ⟨a, ha, haeq⟩ := hcontra
      exact hmiss a ha (by simpa using haeq)
    simp [FunctionWrapperM.parseArguments, hall]
  · intro L hok
    by_cases hall : w.params.all (fun p => args.any (fun a => a.1 == p.name)) = true
    · rw [FunctionWrapperM.parseArguments, hall] at hok
      simp only [Bool.not_true, Bool.false_eq_true, if_false] at hok
      cases hpass : FunctionWrapperM.parseArgsPass w.params args with
      | ok pvs =>
          rw [hpass] at hok
          cases hok
          refine ⟨?_, parseArgsPass_ok_spec w.params args L hpass⟩
          rw [FunctionWrapperM.call, FunctionWrapperM.parseArguments, hall]
          simp [hpass, Except.map]
      | error e =>
          rw [hpass] at hok
          cases e <;> cases hok
    · rw [FunctionWrapperM.parseArguments] at hok
      rw [Bool.not_eq_true] at hall
      rw [hall] at hok
      cases hok
  · intro hparse hunknown
    by_cases hall : w.params.all (fun p => args.any (fun a => a.1 == p.name)) = true
    · have hpass := parseArgsPass_keyError w.params args hparse hunknown
      rw [FunctionWrapperM.parseArguments, hall]
      simp [hpass]
    · rw [Bool.not_eq_true] at hall
      simp [FunctionWrapperM.parseArguments, hall]

/-- The wrapper of the C9 witness: parameter `a` required, parameter
`b` with a default; the callable collects the parsed values. -/
def c9Wrapper : FunctionWrapperM :=
  { funcName := "add",
    params := [{ name := "a", type := .int },
               { name := "b", type := .int, hasDefault := true }],
    func := fun kvs => PyValue.list (kvs.map Prod.snd) }

/-- C9 (witness): omitting the defaulted parameter `b` is rejected
with the schema-mismatch failure; supplying `a` and `b` parses both
values and invokes the callable on them; an extra undeclared `c` is
rejected with the schema-mismatch failure. -/
theorem parseArguments_checks_and_invokes_witness :
    FunctionWrapperM.parseArguments c9Wrapper [("a", .int 1)] =
      .error (.brokenSchema (.obj [("a", .int 1)])
        (FunctionWrapperM.argumentsSchema c9Wrapper))
    ∧ FunctionWrapperM.call c9Wrapper [("a", .int 1), ("b", .int 2)] =
      .ok (.list [.int 1, .int 2])
    ∧ FunctionWrapperM.parseArguments c9Wrapper
        [("a", .int 1), ("b", .int 2), ("c", .int 3)] =
      .error (.brokenSchema (.obj [("a", .int 1), ("b", .int 2), ("c", .int 3)])
        (FunctionWrapperM.argumentsSchema c9Wrapper)) := by
  refine ⟨?_, ?_, ?_⟩
  · exact (parseArguments_checks_and_invokes c9Wrapper [("a", .int 1)]).1
      ⟨{ name := "b", type := .int, hasDefault := true }, by simp [c9Wrapper],
        by intro a ha; fin_cases ha; decide⟩
  · have hok : FunctionWrapperM.parseArguments c9Wrapper
        [("a", .int 1), ("b", .int 2)] = .ok [("a", .int 1), ("b", .int 2)] := by
      simp [FunctionWrapperM.parseArguments, FunctionWrapperM.parseArgsPass,
        c9Wrapper, parseValue, Except.bind]
    exact ((parseArguments_checks_and_invokes c9Wrapper
      [("a", .int 1), ("b", .int 2)]).2.1 _ hok).1
  · exact (parseArguments_checks_and_invokes c9Wrapper
      [("a", .int 1), ("b", .int 2), ("c", .int 3)]).2.2
      (by intro a ha p hp hname
          fin_cases ha <;> fin_cases hp <;> simp_all [parseValue, c9Wrapper, Except.isOk, Except.toBool])
      ⟨("c", .int 3), by simp, by intro p hp; fin_cases hp <;> decide⟩

/-! ## Claim C1: union skill set fall-through -/

/-- A basic set without the requested name raises the top-level
`exceptions.FunctionNotFoundError` for that very name
(`basic_set.py` imports it via `from ..exceptions import
FunctionNotFoundError`). -/
theorem basicRun_of_miss (dec : JsonDecoder) (fns : List OpenAIFunctionM)
    (input : FunctionCallM)
    (h : BasicFunctionSet.hasFunction fns input.name = false) :
    BasicFunctionSet.runFunction dec fns input =
      .error (.functionNotFound input.name) := by
  have hfind : fns.find? (fun f => f.name == input.name) = Option.none := by
    rw [List.find?_eq_none]
    intro f hf
    rw [BasicFunctionSet.hasFunction, List.any_eq_false] at h
    exact h f hf
  rw [BasicFunctionSet.runFunction, BasicFunctionSet.findFunction, hfind]

/-- Nothing in `BasicFunctionSet.run_function`'s call tree raises the
`functions/exceptions.py` class that `union.py` suppresses: its
failures are the top-level `FunctionNotFoundError` (from
`find_function`), `InvalidJsonError`, or a callable's own exception. -/
theorem basicRun_never_functionsPkg (dec : JsonDecoder)
    (fns : List OpenAIFunctionM) (input : FunctionCallM) :
    ∀ m, BasicFunctionSet.runFunction dec fns input ≠
      .error (.functionsPkgFunctionNotFound m) := by
  intro m hcontra
  rw [BasicFunctionSet.runFunction] at hcontra
  cases hfind : BasicFunctionSet.findFunction fns input.name with
  | error e =>
      have hfind2 := hfind
      rw [BasicFunctionSet.findFunction] at hfind2
      cases hf : fns.find? (fun f => f.name == input.name) with
      | none =>
          simp only [hf, Except.error.injEq] at hfind2
          subst hfind2
          simp [hfind] at hcontra
      | some g => rw [hf] at hfind2; exact Except.noConfusion hfind2
  | ok f =>
      simp only [hfind] at hcontra
      cases hdec : dec input.arguments with
      | none => simp [hdec] at hcontra
      | some args =>
          simp only [hdec] at hcontra
          cases hres : BasicFunctionSet.getFunctionResult f args with
          | error e =>
              have hres2 := hres
              rw [BasicFunctionSet.getFunctionResult] at hres2
              cases hcall : f.call args with
              | error e2 =>
                  simp only [hcall, Except.error.injEq] at hres2
                  subst hres2
                  simp [hres] at hcontra
              | ok r => rw [hcall] at hres2; exact Except.noConfusion hres2
          | ok result => simp [hres] at hcontra

/-- C1: the fall-through the claim describes does not happen.
`union.py` suppresses `functions.exceptions.FunctionNotFoundError`
while every child raises the distinct top-level
`exceptions.FunctionNotFoundError`, so as soon as the *first* child
set misses the requested name its exception propagates out of
`UnionSkillSet.run_function` — later children and the local set are
never consulted, and "function not found" is raised even though a
later source holds the name.  The second conjunct shows the
suppression is dead code: no basic-set run ever raises the suppressed
class. -/
theorem unionSkillSet_first_child_miss_propagates (dec : JsonDecoder)
    (u : UnionSkillSetM) (input : FunctionCallM)
    (s : List OpenAIFunctionM) (rest : List (List OpenAIFunctionM))
    (hsets : u.sets = s :: rest)
    (hmiss : BasicFunctionSet.hasFunction s input.name = false) :
    u.runFunction dec input = .error (.functionNotFound input.name)
    ∧ ∀ fns m, BasicFunctionSet.runFunction dec fns input ≠
        .error (.functionsPkgFunctionNotFound m) := by
  constructor
  · rw [UnionSkillSetM.runFunction, hsets, UnionSkillSetM.runLoop,
      basicRun_of_miss dec s input hmiss]
  · exact fun fns => basicRun_never_functionsPkg dec fns input

/-- The JSON decoder of the C1 witness. -/
def c1Dec : JsonDecoder := fun _ => Option.some (.obj [])

/-- First child set of the C1 witness: holds only `"g"`. -/
def c1SetA : List OpenAIFunctionM :=
  [{ name := "g", call := fun _ => .ok .null }]

/-- Second child set of the C1 witness: holds `"f"`. -/
def c1SetB : List OpenAIFunctionM :=
  [{ name := "f", call := fun _ => .ok (.str "from-child") }]

/-- The union of the C1 witness: two children and a local `"f"`. -/
def c1Union : UnionSkillSetM :=
  { sets := [c1SetA, c1SetB],
    functions := [{ name := "f", call := fun _ => .ok (.str "local") }] }

/-- C1 (witness): calling `"f"` on a union whose first child misses it
raises the top-level `FunctionNotFoundError` immediately, although the
second child and the local set both hold a function named `"f"` — the
claimed fall-through does not occur. -/
theorem unionSkillSet_first_child_miss_propagates_witness :
    UnionSkillSetM.runFunction c1Dec c1Union ⟨"f", "\x7b\x7d"⟩ =
      .error (.functionNotFound "f")
    ∧ BasicFunctionSet.hasFunction c1SetB "f" = true
    ∧ BasicFunctionSet.hasFunction c1Union.functions "f" = true := by
  refine ⟨?_, by decide, by decide⟩
  exact (unionSkillSet_first_child_miss_propagates c1Dec c1Union ⟨"f", "\x7b\x7d"⟩
    c1SetA [c1SetB] rfl (by decide)).1

end OpenAIFunctions
